import Mathlib

/-!
Shallow embedding of `tools/trailwaze_dashboard.py` (class `RepositoryAnalyzer`)
and proofs about the claims of its specification.

Modelling conventions:
* The filesystem walk is modelled as a list of `SrcFile` records in discovery
  order; `os.walk` pruning (`dirs[:] = [d for d in dirs if d not in DENY]`)
  becomes "a file is visited iff none of its ancestor directory names is in
  the deny list".
* File text is modelled as the decoded string (`errors='ignore'` already
  applied); `open()` failures are the `readable` flag, `os.path.getsize`
  failures are the `statOk` flag.
* Python `sorted(key=k, reverse=True)` (a stable sort) is modelled by
  `List.insertionSort` with the relation `fun a b => k b ≤ k a`, which is
  proved below to be sorted and stable in the same sense.
* Python `round(x, n)` on exact integer ratios is modelled by round-half-to-
  even on the exact rational value, scaled to an integer number of tenths or
  hundredths.  CPython rounds the nearest binary double instead; the two
  agree except when the double rounding error crosses a decimal boundary,
  and no claim below depends on such an input.
* Subprocess results are an environment record: `none` models a call that
  raised (timeout/OSError), `some (rc, stdout)` a completed call.
-/

namespace Trailwaze

/-- Python `str.strip()` whitespace test (ASCII approximation). -/
def isWS (c : Char) : Bool := c.isWhitespace

/-- Python `str.strip()`: drop leading and trailing whitespace. -/
def stripChars (cs : List Char) : List Char :=
  ((cs.dropWhile isWS).reverse.dropWhile isWS).reverse

/-- String version of `stripChars`. -/
def stripStr (s : String) : String := String.mk (stripChars s.data)

/-- Split at each separator, fuel-structured so that the recursion depth is
the number of separators rather than the string length. -/
def splitOnCharFuel (sep : Char) : Nat → List Char → List (List Char)
  | 0, cs => [cs]
  | fuel + 1, cs =>
    let pre := cs.takeWhile (fun c => c ≠ sep)
    if pre.length = cs.length then [cs]
    else pre :: splitOnCharFuel sep fuel (cs.drop (pre.length + 1))

/-- Python `s.split(sep)` for a single-character separator: splitting the
empty string yields `[""]`, like Python. -/
def splitOnChar (sep : Char) (cs : List Char) : List (List Char) :=
  splitOnCharFuel sep cs.length cs

/-- Python `s.split("\n")`. -/
def splitLines (s : String) : List String :=
  (splitOnChar '\n' s.data).map String.mk

/-- Python `s.split("|", k)`: split on `'|'` at most `k` times. -/
def splitBarAux : Nat → List Char → List (List Char)
  | 0, cs => [cs]
  | k + 1, cs =>
    let pre := cs.takeWhile (fun c => c ≠ '|')
    if pre.length = cs.length then [cs]
    else pre :: splitBarAux k (cs.drop (pre.length + 1))

/-- Python `line.split("|", 3)`. -/
def splitBarMax3 (s : String) : List String :=
  (splitBarAux 3 s.data).map String.mk

/-- Python `s.endswith(p)`. -/
def isSuffix (p s : String) : Bool := p.data.isSuffixOf s.data

/-- Python `s.endswith(tuple)`: any of the suffixes matches. -/
def endsWithAny (s : String) (ps : List String) : Bool :=
  ps.any (fun p => isSuffix p s)

/-- Python `s.startswith(p)`. -/
def startsWith (p s : String) : Bool := p.data.isPrefixOf s.data

/-- Python `s.lower()` (ASCII approximation of Unicode lowercasing). -/
def lowerStr (s : String) : String := String.mk (s.data.map Char.toLower)

/-- Substring scan: `p` occurs somewhere in the list. -/
def hasInfixAux (p : List Char) : List Char → Bool
  | [] => p.isEmpty
  | c :: rest => p.isPrefixOf (c :: rest) || hasInfixAux p rest

/-- Python `p in s` (substring containment). -/
def hasInfix (p s : String) : Bool := hasInfixAux p.data s.data

/-- Python `s.count(pat)`: non-overlapping occurrences, scanned left to
right.  Fuel-structured so that it reduces definitionally. -/
def countOccAux (pat : List Char) : Nat → List Char → Nat
  | 0, _ => 0
  | fuel + 1, s =>
    match s with
    | [] => 0
    | c :: rest =>
      if !pat.isEmpty && pat.isPrefixOf (c :: rest) then
        1 + countOccAux pat fuel (rest.drop (pat.length - 1))
      else
        countOccAux pat fuel rest

/-- Python `content.count(pat)` for nonempty `pat`. -/
def countOcc (pat s : String) : Nat := countOccAux pat.data s.data.length s.data

/-- Python `s.replace(pat, "")` for nonempty `pat`: remove all
non-overlapping occurrences, left to right. -/
def removeOccAux (pat : List Char) : Nat → List Char → List Char
  | 0, s => s
  | fuel + 1, s =>
    match s with
    | [] => []
    | c :: rest =>
      if !pat.isEmpty && pat.isPrefixOf (c :: rest) then
        removeOccAux pat fuel (rest.drop (pat.length - 1))
      else
        c :: removeOccAux pat fuel rest

/-- Python `s.replace(pat, "")`. -/
def removeOcc (pat s : String) : String :=
  String.mk (removeOccAux pat.data s.data.length s.data)

/-- Python `len(f.readlines())` on decoded text `s`: the number of newline
characters, plus one for a final unterminated line. -/
def readlinesCount (s : String) : Nat :=
  if s.data.isEmpty then 0
  else s.data.count '\n' + (if s.data.getLast? = some '\n' then 0 else 1)

/-- Python `len(content.split('\n'))`. -/
def splitNLCount (s : String) : Nat := s.data.count '\n' + 1

/-- Decimal digits to a natural number. -/
def digitsToNat (ds : List Char) : Nat :=
  ds.foldl (fun a c => a * 10 + (c.toNat - '0'.toNat)) 0

/-- Python `int(s)` after `strip()` (ASCII digits with an optional sign;
`none` models a raised `ValueError`). -/
def parseIntStr (s : String) : Option Int :=
  match stripChars s.data with
  | [] => none
  | '-' :: ds =>
      if ds ≠ [] ∧ ds.all Char.isDigit then some (-(digitsToNat ds : Int)) else none
  | '+' :: ds =>
      if ds ≠ [] ∧ ds.all Char.isDigit then some (digitsToNat ds : Int) else none
  | ds => if ds.all Char.isDigit then some (digitsToNat ds : Int) else none

/-- Python `dict.fromkeys(l)` key order: deduplicate keeping first
occurrences. -/
def dedupKeepFirst (seen : List String) : List String → List String
  | [] => []
  | x :: xs =>
    if x ∈ seen then dedupKeepFirst seen xs
    else x :: dedupKeepFirst (x :: seen) xs

/-- Round `n / d` (for `0 < d`) to the nearest integer, ties to even: the
exact-rational model of Python `round` on a ratio of integers. -/
def roundHalfEvenDiv (n d : Int) : Int :=
  if d ≤ 0 then 0
  else
    let q := n / d
    let r := n % d
    if 2 * r < d then q
    else if d < 2 * r then q + 1
    else if q % 2 = 0 then q else q + 1

/-- Python `os.path.splitext(name)[1]`: the suffix from the last dot,
empty when the only dots are leading ones. -/
def extAfterLastDot (name : String) : String :=
  let cs := name.data
  let revAfter := cs.reverse.takeWhile (fun c => c ≠ '.')
  if revAfter.length = cs.length then ""
  else
    let sepIdx := cs.length - revAfter.length - 1
    if (cs.take sepIdx).any (fun c => c ≠ '.') then
      String.mk ('.' :: revAfter.reverse)
    else ""

/-- Python `os.path.splitext(file)[1] or "other"`. -/
def extOr (name : String) : String :=
  let e := extAfterLastDot name
  if e = "" then "other" else e

/-- A file of the repository tree, in `os.walk` discovery order.  `dirs` is
the chain of directory names between the repository root and the file. -/
structure SrcFile where
  dirs : List String
  name : String
  content : String
  readable : Bool
  sizeBytes : Nat
  statOk : Bool
deriving DecidableEq

/-- Python `os.path.relpath(filepath, repo_root)` (POSIX separators). -/
def relPath (f : SrcFile) : String :=
  String.intercalate "/" (f.dirs ++ [f.name])

/-- The directory part of the walk root below the repository root, joined;
used for the `"__tests__" in root` check (the repository root itself is
assumed not to contain `__tests__`). -/
def dirsJoined (f : SrcFile) : String := String.intercalate "/" f.dirs

/-- A file survives `os.walk` pruning against `deny` iff no ancestor
directory name is on the list. -/
def visitedBy (deny : List String) (f : SrcFile) : Bool :=
  f.dirs.all (fun d => !(deny.contains d))

/-- Deny list of `_analyze_code` (lines 145-148). -/
def codeDenyDirs : List String :=
  ["node_modules", ".git", "coverage", "build", "dist", "venv", ".venv",
   ".next", "out", "public", "__pycache__", ".pytest_cache", ".env.local"]

/-- Deny list of `_analyze_tests` (line 217). -/
def testsDenyDirs : List String := ["node_modules", ".git", "coverage"]

/-- Deny list of `_analyze_files` (line 342). -/
def filesDenyDirs : List String :=
  ["node_modules", ".git", "coverage", "build", "dist"]

/-- Recognized source extensions (line 163). -/
def sourceExts : List String :=
  [".js", ".ts", ".tsx", ".jsx", ".py", ".java", ".go", ".rs"]

/-- Test suffixes excluded from main files (line 164): JS/TS only. -/
def jsTestSuffixes : List String :=
  [".test.js", ".spec.js", ".test.ts", ".spec.ts"]

/-- Test suffixes of the LOC breakdown (line 173). -/
def locTestSuffixes : List String :=
  [".test.js", ".test.ts", ".spec.js", ".spec.ts", ".test.py"]

/-- Config suffixes of the LOC breakdown (line 177). -/
def configSuffixes : List String := [".json", ".yaml", ".yml", ".toml", ".xml"]

/-- Python stable descending sort `sorted(l, key=k, reverse=True)`. -/
def rankDescBy {α : Type} (key : α → Nat) (l : List α) : List α :=
  List.insertionSort (fun a b => key b ≤ key a) l

/-- One commit entry parsed from the commit log (lines 113-118). -/
structure Commit where
  hash : String
  date : String
  message : String
  author : String
deriving DecidableEq

/-- The `git_data` dictionary of `_analyze_git` (lines 53-61). -/
structure GitData where
  total_commits : Int
  branches : List String
  current_branch : String
  contributors : List String
  commit_history : List Commit
  first_commit_date : Option String
  last_commit_date : Option String
deriving DecidableEq

/-- The zero-valued git summary (lines 53-61). -/
def defaultGitData : GitData :=
  { total_commits := 0
    branches := []
    current_branch := "unknown"
    contributors := []
    commit_history := []
    first_commit_date := none
    last_commit_date := none }

/-- Results of the five `subprocess.run` git queries: `none` models a call
that raised (e.g. timeout), `some (returncode, stdout)` a completed call. -/
structure GitEnv where
  gitDirExists : Bool
  qCount : Option (Int × String)
  qBranch : Option (Int × String)
  qBranches : Option (Int × String)
  qAuthors : Option (Int × String)
  qLog : Option (Int × String)

/-- Branch-list parsing (lines 89-91): split raw stdout on newlines, keep
stripped-nonempty entries, strip each and delete occurrences of `"* "`. -/
def parseBranches (out : String) : List String :=
  (splitLines out).filterMap (fun b =>
    let s := stripStr b
    if s = "" then none else some (removeOcc "* " s))

/-- Contributor parsing (lines 98-100): strip, split on newlines,
deduplicate keeping first occurrences, then keep stripped-nonempty names. -/
def parseContributors (out : String) : List String :=
  (dedupKeepFirst [] (splitLines (stripStr out))).filterMap (fun c =>
    let s := stripStr c
    if s = "" then none else some s)

/-- Commit-log parsing (lines 108-118): strip, split on newlines, skip empty
lines, split each on `"|"` at most 3 times, skip lines with fewer than four
fields, and truncate the hash to 7 characters. -/
def parseLog (raw : String) : List Commit :=
  (splitLines (stripStr raw)).filterMap (fun line =>
    if line = "" then none
    else
      match splitBarMax3 line with
      | [h, d, m, a] => some ⟨String.mk (h.data.take 7), d, m, a⟩
      | _ => none)

/-- Fifth git step (lines 102-123): the bounded commit log and first/last
commit dates.  The dates are taken from the full parsed list `commits`,
while `commit_history` is capped to the first 100 entries. -/
def gitStep5 (env : GitEnv) (g : GitData) : GitData :=
  match env.qLog with
  | none => g
  | some (rc, out) =>
    if rc = 0 then
      let commits := parseLog out
      let g5 := { g with commit_history := commits.take 100 }
      if commits.isEmpty then g5
      else
        { g5 with
          first_commit_date := commits.getLast?.map (·.date)
          last_commit_date := commits.head?.map (·.date) }
    else g

/-- Fourth git step (lines 93-100): contributors. -/
def gitStep4 (env : GitEnv) (g : GitData) : GitData :=
  match env.qAuthors with
  | none => g
  | some (rc, out) =>
    gitStep5 env (if rc = 0 then { g with contributors := parseContributors out } else g)

/-- Third git step (lines 84-91): branch list. -/
def gitStep3 (env : GitEnv) (g : GitData) : GitData :=
  match env.qBranches with
  | none => g
  | some (rc, out) =>
    gitStep4 env (if rc = 0 then { g with branches := parseBranches out } else g)

/-- Second git step (lines 76-82): current branch. -/
def gitStep2 (env : GitEnv) (g : GitData) : GitData :=
  match env.qBranch with
  | none => g
  | some (rc, out) =>
    gitStep3 env (if rc = 0 then { g with current_branch := stripStr out } else g)

/-- `_analyze_git` (lines 50-128).  With no `.git` directory the default is
returned before any query runs.  A query that raised (`none`), or a failing
`int()` parse of the commit count, jumps to the `except` handler and the
summary accumulated so far is returned. -/
def analyzeGit (env : GitEnv) : GitData :=
  if env.gitDirExists then
    match env.qCount with
    | none => defaultGitData
    | some (rc, out) =>
      if rc = 0 then
        match parseIntStr out with
        | none => defaultGitData
        | some n => gitStep2 env { defaultGitData with total_commits := n }
      else gitStep2 env defaultGitData
  else defaultGitData

/-- An entry of the `main_files` ranking (lines 166-170). -/
structure MainEntry where
  path : String
  lines : Nat
  ext : String
deriving DecidableEq

/-- The four-way LOC split (line 138). -/
structure LocBreakdown where
  source : Nat
  tests : Nat
  config : Nat
  docs : Nat
deriving DecidableEq

/-- One entry of the per-extension table (`file_stats`, line 141). -/
structure ExtStat where
  ext : String
  count : Nat
  lines : Nat
deriving DecidableEq

/-- `defaultdict` accumulation preserving key insertion order. -/
def addStat : List ExtStat → String → Nat → List ExtStat
  | [], e, n => [⟨e, 1, n⟩]
  | s :: rest, e, n =>
    if s.ext = e then ⟨s.ext, s.count + 1, s.lines + n⟩ :: rest
    else s :: addStat rest e n

/-- The accumulator state of the `_analyze_code` walk. -/
structure CodeAcc where
  stats : List ExtStat
  total : Nat
  mains : List MainEntry
  loc : LocBreakdown
deriving DecidableEq

/-- Empty `_analyze_code` accumulator (lines 133-141). -/
def codeAccInit : CodeAcc := ⟨[], 0, [], ⟨0, 0, 0, 0⟩⟩

/-- Loop body of `_analyze_code` (lines 150-183) for one walked file:
pruned or unreadable files change nothing; otherwise the line count goes to
the extension table and total, the main-file list grows when the extension
is a source one and the name is not a JS/TS test suffix, and the LOC
breakdown is updated by the if/elif suffix chain. -/
def codeStep (acc : CodeAcc) (f : SrcFile) : CodeAcc :=
  if !(visitedBy codeDenyDirs f) then acc
  else if !f.readable then acc
  else
    let n := readlinesCount f.content
    let acc1 : CodeAcc :=
      { acc with
        stats := addStat acc.stats (extOr f.name) n
        total := acc.total + n
        mains :=
          if endsWithAny f.name sourceExts && !(endsWithAny f.name jsTestSuffixes)
          then acc.mains ++ [⟨relPath f, n, extOr f.name⟩]
          else acc.mains }
    if endsWithAny f.name locTestSuffixes then
      { acc1 with loc := { acc1.loc with tests := acc1.loc.tests + n } }
    else if isSuffix ".md" f.name then
      { acc1 with loc := { acc1.loc with docs := acc1.loc.docs + n } }
    else if endsWithAny f.name configSuffixes then
      { acc1 with loc := { acc1.loc with config := acc1.loc.config + n } }
    else if endsWithAny f.name sourceExts then
      { acc1 with loc := { acc1.loc with source := acc1.loc.source + n } }
    else acc1

/-- The `code_data` dictionary of `_analyze_code` (lines 133-139).  The
`languages` key is never populated by the source and is omitted. -/
structure CodeData where
  files_by_extension : List ExtStat
  total_lines : Nat
  main_files : List MainEntry
  loc_breakdown : LocBreakdown
deriving DecidableEq

/-- `_analyze_code` (lines 130-194): walk, accumulate, then sort the
extension table by line count (descending, stable) and cap the main-file
ranking at 20. -/
def analyzeCode (fs : List SrcFile) : CodeData :=
  let acc := fs.foldl codeStep codeAccInit
  { files_by_extension := rankDescBy (·.lines) acc.stats
    total_lines := acc.total
    main_files := (rankDescBy (·.lines) acc.mains).take 20
    loc_breakdown := acc.loc }

/-- The test-file patterns of lines 207-211 after `pattern.replace("*", "")`
(so `"test_*.py"` degenerates to the literal suffix `"test_.py"`). -/
def testPatternSuffixes : List String :=
  [".test.js", ".spec.js", ".test.ts", ".spec.ts",
   ".test.py", "test_.py", "_test.py",
   "_test.go", "test_.java"]

/-- Candidate check of line 223-225: suffix patterns, the substring `test`
in the lowercased name, or a `__tests__` directory on the walk root. -/
def isTestCandidate (f : SrcFile) : Bool :=
  endsWithAny f.name testPatternSuffixes
  || hasInfix "test" (lowerStr f.name)
  || hasInfix "__tests__" (dirsJoined f)

/-- The six test-declaration markers of lines 232-239. -/
def testMarkers : List String :=
  ["it(", "test(", "describe(", "def test_", "func Test", "@Test"]

/-- Summed marker count of lines 232-239. -/
def countTests (content : String) : Nat :=
  (testMarkers.map (fun m => countOcc m content)).sum

/-- One entry of the `test_files` ranking (lines 243-247). -/
structure TestEntry where
  path : String
  tests : Nat
  lines : Nat
deriving DecidableEq

/-- The accumulator state of the `_analyze_tests` walk. -/
structure TestAcc where
  files : List TestEntry
  total : Nat
deriving DecidableEq

/-- Loop body of `_analyze_tests` (lines 219-263) for one walked file. -/
def testStep (acc : TestAcc) (f : SrcFile) : TestAcc :=
  if !(visitedBy testsDenyDirs f) then acc
  else if !(isTestCandidate f) then acc
  else if !f.readable then acc
  else
    let tc := countTests f.content
    if tc = 0 then acc
    else ⟨acc.files ++ [⟨relPath f, tc, splitNLCount f.content⟩], acc.total + tc⟩

/-- The `test_data` dictionary of `_analyze_tests` (lines 199-205).
Framework detection and the never-populated `test_suites` key are not
referenced by any claim and are omitted. -/
structure TestData where
  total_tests : Nat
  test_files : List TestEntry
  test_coverage : Nat
deriving DecidableEq

/-- `_analyze_tests` (lines 196-275).  `prevCode` is the value of
`self.data.get("code")` at call time; inside `analyze()` it is `none`
because `self.data` has not yet been assigned.  The coverage formula of
lines 269-273 (`min(100, int((test_lines / source_lines) * 100))`) is
modelled as truncation of the exact ratio. -/
def analyzeTests (fs : List SrcFile) (prevCode : Option CodeData) : TestData :=
  let acc := fs.foldl testStep (⟨[], 0⟩ : TestAcc)
  { total_tests := acc.total
    test_files := (rankDescBy (·.tests) acc.files).take 15
    test_coverage :=
      match prevCode with
      | none => 0
      | some cd =>
        if 0 < cd.loc_breakdown.source then
          min 100 ((cd.loc_breakdown.tests * 100) / cd.loc_breakdown.source)
        else 0 }

/-- How reading `package.json` went (lines 288-298): absent, raising inside
`json.load` (nothing recorded), a JSON value that is not an object (the
`"npm"` append happens before `pkg.get` raises), or an object with the
given numbers of dependencies and dev-dependencies. -/
inductive PkgRead where
  | absent
  | malformed
  | nonDict
  | parsed (ndeps ndev : Nat)

/-- How reading `requirements.txt` went (lines 301-309). -/
inductive ReqRead where
  | absent
  | failed
  | readLines (ls : List String)

/-- The root-level manifest probes of `_analyze_dependencies`. -/
structure DepEnv where
  packageJson : PkgRead
  requirementsTxt : ReqRead
  goMod : Bool
  gemfile : Bool

/-- The `deps_data` dictionary (lines 280-285); the dependency and
dev-dependency mappings are modelled by their sizes, the only thing the
source derives from them. -/
structure DepsData where
  package_managers : List String
  dependencies : Nat
  dev_dependencies : Nat
  total_deps : Nat
deriving DecidableEq

/-- Line count of `requirements.txt` (line 307): lines that are nonempty
after `strip()` and whose raw text does not start with `"#"`. -/
def reqCount (ls : List String) : Nat :=
  (ls.filter (fun l => stripStr l ≠ "" ∧ ¬ startsWith "#" l)).length

/-- `_analyze_dependencies` (lines 277-321).  Note line 307 assigns
`total_deps` rather than adding to it, overwriting any npm count. -/
def analyzeDependencies (e : DepEnv) : DepsData :=
  let s0 : DepsData := ⟨[], 0, 0, 0⟩
  let s1 : DepsData :=
    match e.packageJson with
    | .absent => s0
    | .malformed => s0
    | .nonDict => { s0 with package_managers := s0.package_managers ++ ["npm"] }
    | .parsed n d =>
      { package_managers := s0.package_managers ++ ["npm"]
        dependencies := n
        dev_dependencies := d
        total_deps := n + d }
  let s2 : DepsData :=
    match e.requirementsTxt with
    | .absent => s1
    | .failed => s1
    | .readLines ls =>
      { s1 with
        package_managers := s1.package_managers ++ ["pip"]
        total_deps := reqCount ls }
  let s3 : DepsData :=
    if e.goMod then { s2 with package_managers := s2.package_managers ++ ["go modules"] }
    else s2
  if e.gemfile then { s3 with package_managers := s3.package_managers ++ ["bundler"] }
  else s3

/-- One entry of `all_files` (lines 352-356); `size_kb10` is the size in
tenths of a kilobyte, the exact-rational model of `round(size/1024, 1)`. -/
structure FileEntry where
  path : String
  size_kb10 : Nat
  ext : String
deriving DecidableEq

/-- Python `round(bytes / 1024, 1)` in tenths of a kilobyte. -/
def sizeKb10 (bytes : Nat) : Nat :=
  (roundHalfEvenDiv ((bytes : Int) * 10) 1024).toNat

/-- Known config filenames (lines 334-336). -/
def configFilenames : List String :=
  ["package.json", "tsconfig.json", "jest.config.js", ".gitlab-ci.yml",
   "Dockerfile", "docker-compose.yml", ".env.example", "setup.py",
   "pyproject.toml", "go.mod", "Cargo.toml", "pom.xml", ".eslintrc",
   ".prettierrc"]

/-- Documentation suffixes (line 337). -/
def docSuffixes : List String := [".md", ".rst", ".txt"]

/-- The accumulator state of the `_analyze_files` walk. -/
structure FilesAcc where
  total : Nat
  allFiles : List FileEntry
  config : List String
  docs : List String
deriving DecidableEq

/-- Loop body of `_analyze_files` (lines 344-367): `total_files` counts
every visited file before the `try`, while the size entry and the
config/doc listings require `os.path.getsize` to succeed. -/
def filesStep (acc : FilesAcc) (f : SrcFile) : FilesAcc :=
  if !(visitedBy filesDenyDirs f) then acc
  else
    let acc0 := { acc with total := acc.total + 1 }
    if !f.statOk then acc0
    else
      { acc0 with
        allFiles := acc0.allFiles ++ [⟨relPath f, sizeKb10 f.sizeBytes, extAfterLastDot f.name⟩]
        config := if configFilenames.contains f.name then acc0.config ++ [relPath f] else acc0.config
        docs := if endsWithAny f.name docSuffixes then acc0.docs ++ [relPath f] else acc0.docs }

/-- Extension histogram accumulation (lines 373-376). -/
def addCount : List (String × Nat) → String → List (String × Nat)
  | [], e => [(e, 1)]
  | (k, n) :: rest, e =>
    if k = e then (k, n + 1) :: rest else (k, n) :: addCount rest e

/-- The `files_data` dictionary of `_analyze_files` (lines 326-331). -/
structure FilesData where
  total_files : Nat
  config_files : List String
  documentation : List String
  largest_files : List FileEntry
  file_distribution : List (String × Nat)
deriving DecidableEq

/-- `_analyze_files` (lines 323-379). -/
def analyzeFiles (fs : List SrcFile) : FilesData :=
  let acc := fs.foldl filesStep (⟨0, [], [], []⟩ : FilesAcc)
  { total_files := acc.total
    config_files := acc.config
    documentation := acc.docs
    largest_files := (rankDescBy (·.size_kb10) acc.allFiles).take 15
    file_distribution :=
      rankDescBy (·.2)
        (acc.allFiles.foldl
          (fun m e => addCount m (if e.ext = "" then "other" else e.ext)) []) }

/-- The fixed refactor keyword list (line 447). -/
def refactorKeywords : List String :=
  ["refactor", "cleanup", "reorganize", "update", "move", "rename"]

/-- A commit whose lowercased subject contains a refactor keyword
(line 448). -/
def isRefactor (c : Commit) : Bool :=
  refactorKeywords.any (fun kw => hasInfix kw (lowerStr c.message))

/-- Number of refactor-style commits among `cs` (line 448). -/
def countRefactors (cs : List Commit) : Nat := (cs.filter isRefactor).length

/-- The `metrics` dictionary of `_calculate_quality_metrics` (lines
423-428).  `commits_per_day` is stored in hundredths and
`refactoring_ratio` in tenths, the exact-integer encodings of the
2-decimal and 1-decimal rounded floats. -/
structure QualityData where
  project_age_days : Int
  commits_per_day_hundredths : Int
  refactoring_ratio_tenths : Int
  code_organization_score : Nat
deriving DecidableEq

/-- `_calculate_quality_metrics` (lines 420-452).  `gd?` is the value of
`self.data.get("git")` at call time; inside `analyze()` it is `none`
because `self.data` has not yet been assigned.  `oracle s` is the
`.days` value that `datetime` arithmetic produces for the first-commit
date string `s`, or `none` when `datetime.fromisoformat` raises. -/
def calcQuality (oracle : String → Option Int) (gd? : Option GitData) : QualityData :=
  let first? : Option String := gd?.bind (·.first_commit_date)
  let total : Int := (gd?.map (·.total_commits)).getD 0
  let commits : List Commit := (gd?.map (·.commit_history)).getD []
  let age : Int :=
    match first? with
    | none => 1
    | some s =>
      match oracle s with
      | none => 1
      | some d => max 1 d
  let cpd : Int := if 0 < age then roundHalfEvenDiv (total * 100) age else 0
  let ratio : Int :=
    if 0 < total then roundHalfEvenDiv ((countRefactors commits : Int) * 1000) total
    else 0
  ⟨age, cpd, ratio, 75⟩

/-- The sub-records of `self.data` built by `analyze` (lines 35-46) that
the claims reference (`repo_name`, `repo_path`, `scanned_at` and the CI
section are plain copies or unclaimed and are omitted). -/
structure AnalysisData where
  git : GitData
  code : CodeData
  tests : TestData
  dependencies : DepsData
  files : FilesData
  quality : QualityData
deriving DecidableEq

/-- `RepositoryAnalyzer.analyze` (lines 31-48).  CPython evaluates the
whole dict literal before storing it into `self.data`, so the passes that
consult `self.data` during that evaluation observe the initial empty dict
from `__init__`: `_analyze_tests` finds no `"code"` entry and
`_calculate_quality_metrics` finds no `"git"` entry.  That is why both
receive `none` here. -/
def analyze (oracle : String → Option Int) (env : GitEnv) (fs : List SrcFile)
    (deps : DepEnv) : AnalysisData :=
  { git := analyzeGit env
    code := analyzeCode fs
    tests := analyzeTests fs none
    dependencies := analyzeDependencies deps
    files := analyzeFiles fs
    quality := calcQuality oracle none }

/-! Concrete inputs used by witnesses and counterexamples. -/

/-- A text of `n` lines, each terminated by a newline. -/
def repLine : Nat → String
  | 0 => ""
  | n + 1 => "x\n" ++ repLine n

/-- A 50-line Python source file (the scenario of spec section 8). -/
def aPy : SrcFile := ⟨[], "a.py", repLine 50, true, 1000, true⟩

/-- A 20-line Python test file containing two `test(` markers (the scenario
of spec section 8). -/
def aTestPy : SrcFile :=
  ⟨[], "a.test.py", "test(a)\ntest(b)\n" ++ repLine 18, true, 400, true⟩

/-- The two-file scenario repository of spec section 8. -/
def c1Repo : List SrcFile := [aPy, aTestPy]

/-- A pytest-style file under a `build` directory: `build` is on the code
and inventory deny lists but not on the test-walk deny list. -/
def buildTestFile : SrcFile :=
  ⟨["build"], "test_a.py", "def test_a(): pass\n", true, 19, true⟩

/-- Short distinct date strings for synthetic commit logs. -/
def dstr (i : Nat) : String :=
  String.mk [Char.ofNat (65 + i / 26), Char.ofNat (65 + i % 26)]

/-- One synthetic `git log` line. -/
def mkLogLine (i : Nat) : String := "h|" ++ dstr i ++ "|m|a"

/-- A 101-commit raw log, newest first. -/
def rawLog101 : String :=
  String.intercalate "\n" ((List.range 101).map mkLogLine)

/-- A git environment whose only successful query is a 101-commit log. -/
def env101 : GitEnv :=
  ⟨true, some (1, ""), some (1, ""), some (1, ""), some (1, ""), some (0, rawLog101)⟩

/-- A two-commit raw log whose both subjects contain refactor keywords. -/
def rawLog2 : String := "h1|d1|Refactor a|Alice\nh2|d2|cleanup b|Bob"

/-- A fully healthy git environment with two refactor-style commits. -/
def env2 : GitEnv :=
  ⟨true, some (0, "2\n"), some (0, "main\n"), some (0, "* main\n  dev\n"),
   some (0, "Alice\nBob\nAlice\n"), some (0, rawLog2)⟩

/-- A date oracle on which every parse fails. -/
def oracleNone : String → Option Int := fun _ => none

/-- A repository root with no `.git` directory but nontrivial query
results, to show they are never consulted. -/
def envNoGit : GitEnv :=
  ⟨false, some (0, "999"), some (0, "main"), some (0, "main"),
   some (0, "Zoe"), some (0, "h|d|m|a")⟩

/-- No manifest files at the root. -/
def depsNone : DepEnv := ⟨.absent, .absent, false, false⟩

/-- A git summary with an unparseable first-commit date and 5 commits. -/
def c4Git : GitData :=
  { defaultGitData with
    first_commit_date := some "not-a-date"
    total_commits := 5
    commit_history := [⟨"h", "d", "refactor x", "a"⟩] }

/-- Both `package.json` (5 + 2 entries) and `requirements.txt` present. -/
def depBoth : DepEnv :=
  ⟨.parsed 5 2, .readLines ["a==1\n", "# c\n", "\n", "b\n"], false, false⟩

/-- The main-file entry produced for `aTestPy`. -/
def c9Entry : MainEntry := ⟨"a.test.py", 20, ".py"⟩

/-- A file under `node_modules`, pruned by every walker. -/
def nmFile : SrcFile := ⟨["node_modules"], "x.py", "hello\n", true, 6, true⟩

/-!
Lemmas about the stable descending sort: `rankDescBy key` is sorted
descending by `key`, and filtering any single key class recovers it in the
original (discovery) order — the formal content of Python's sort
stability. -/

lemma rankDescBy_sorted {α : Type} (key : α → Nat) (l : List α) :
    (rankDescBy key l).Pairwise (fun a b => key b ≤ key a) := by
  have h1 : IsTotal α (fun a b => key b ≤ key a) :=
    ⟨fun a b => le_total (key b) (key a)⟩
  have h2 : IsTrans α (fun a b => key b ≤ key a) :=
    ⟨fun _ _ _ u v => le_trans v u⟩
  exact List.sorted_insertionSort _ l

lemma filter_orderedInsert {α : Type} (key : α → Nat) (v : Nat) (a : α)
    (l : List α) :
    (List.orderedInsert (fun a b => key b ≤ key a) a l).filter
        (fun x => key x == v)
      = if key a = v then a :: l.filter (fun x => key x == v)
        else l.filter (fun x => key x == v) := by
  induction l with
  | nil =>
    by_cases h : key a = v <;>
      simp [List.orderedInsert, List.filter_cons, h]
  | cons b t ih =>
    simp only [List.orderedInsert]
    by_cases hr : key b ≤ key a
    · rw [if_pos hr]
      by_cases h : key a = v <;> simp [List.filter_cons, h]
    · rw [if_neg hr]
      have hb : key a < key b := lt_of_not_le hr
      by_cases h : key a = v
      · have hbv : ¬ (key b = v) := by omega
        simp [List.filter_cons, ih, h, hbv]
      · simp [List.filter_cons, ih, h]

lemma filter_rankDescBy {α : Type} (key : α → Nat) (v : Nat) (l : List α) :
    (rankDescBy key l).filter (fun x => key x == v)
      = l.filter (fun x => key x == v) := by
  induction l with
  | nil => rfl
  | cons a t ih =>
    by_cases h : key a = v <;>
      simp [rankDescBy, List.insertionSort, filter_orderedInsert, h,
        List.filter_cons, ih.symm]

lemma rank_take_length {α : Type} (key : α → Nat) (cap : Nat) (l : List α) :
    ((rankDescBy key l).take cap).length ≤ cap :=
  List.length_take_le _ _

lemma rank_take_pairwise {α : Type} (key : α → Nat) (cap : Nat) (l : List α) :
    ((rankDescBy key l).take cap).Pairwise (fun a b => key b ≤ key a) :=
  (rankDescBy_sorted key l).sublist (List.take_sublist _ _)

lemma rank_take_stable {α : Type} (key : α → Nat) (cap v : Nat) (l : List α) :
    List.Sublist (((rankDescBy key l).take cap).filter (fun x => key x == v))
      (l.filter (fun x => key x == v)) := by
  have h := (List.take_sublist cap (rankDescBy key l)).filter
    (fun x => key x == v)
  rwa [filter_rankDescBy] at h

/-!
Lemmas about pruned files: a walk step on a file rejected by the pruning
check leaves the accumulator unchanged, so the file is invisible to the
whole pass. -/

lemma codeStep_skip (acc : CodeAcc) (f : SrcFile)
    (h : visitedBy codeDenyDirs f = false) : codeStep acc f = acc := by
  simp [codeStep, h]

lemma testStep_skip (acc : TestAcc) (f : SrcFile)
    (h : visitedBy testsDenyDirs f = false) : testStep acc f = acc := by
  simp [testStep, h]

lemma filesStep_skip (acc : FilesAcc) (f : SrcFile)
    (h : visitedBy filesDenyDirs f = false) : filesStep acc f = acc := by
  simp [filesStep, h]

lemma foldl_skip_middle {α β : Type} (step : β → α → β) (i : β) (f : α)
    (l1 l2 : List α) (h : ∀ acc, step acc f = acc) :
    List.foldl step i (l1 ++ f :: l2) = List.foldl step i (l1 ++ l2) := by
  rw [List.foldl_append, List.foldl_append, List.foldl_cons, h]

lemma visitedBy_false_of_mem (deny : List String) (f : SrcFile) (d : String)
    (hd : d ∈ f.dirs) (hdeny : deny.contains d = true) :
    visitedBy deny f = false := by
  refine List.all_eq_false.mpr ⟨d, hd, ?_⟩
  simpa using hdeny

lemma common_deny_contains (d : String) (h : d ∈ testsDenyDirs) :
    codeDenyDirs.contains d = true ∧ testsDenyDirs.contains d = true ∧
      filesDenyDirs.contains d = true := by
  simp only [testsDenyDirs, List.mem_cons, List.not_mem_nil, or_false] at h
  rcases h with rfl | rfl | rfl <;> exact ⟨by decide, by decide, by decide⟩

/-!
Lemmas about the git reader chain: field preservation through the steps and
the shape of the log step. -/

lemma gitStep5_log (env : GitEnv) (g : GitData) (raw : String)
    (h7 : env.qLog = some (0, raw))
    (hg1 : g.first_commit_date = none) (hg2 : g.last_commit_date = none) :
    (gitStep5 env g).commit_history = (parseLog raw).take 100
  ∧ (gitStep5 env g).first_commit_date = ((parseLog raw).getLast?).map (·.date)
  ∧ (gitStep5 env g).last_commit_date = ((parseLog raw).head?).map (·.date) := by
  simp only [gitStep5, h7]
  by_cases he : (parseLog raw).isEmpty
  · have hnil : parseLog raw = [] := List.isEmpty_iff.mp he
    simp [he, hnil, hg1, hg2]
  · have hne : parseLog raw ≠ [] := by
      intro hc
      exact he (by simp [hc])
    simp [he]

lemma gitStep4_log (env : GitEnv) (g : GitData) (raw : String)
    (h6 : env.qAuthors.isSome = true) (h7 : env.qLog = some (0, raw))
    (hg1 : g.first_commit_date = none) (hg2 : g.last_commit_date = none) :
    (gitStep4 env g).commit_history = (parseLog raw).take 100
  ∧ (gitStep4 env g).first_commit_date = ((parseLog raw).getLast?).map (·.date)
  ∧ (gitStep4 env g).last_commit_date = ((parseLog raw).head?).map (·.date) := by
  obtain ⟨⟨rc, out⟩, he⟩ := Option.isSome_iff_exists.mp h6
  simp only [gitStep4, he]
  split_ifs with h
  · exact gitStep5_log env _ raw h7 hg1 hg2
  · exact gitStep5_log env g raw h7 hg1 hg2

lemma gitStep3_log (env : GitEnv) (g : GitData) (raw : String)
    (h5 : env.qBranches.isSome = true) (h6 : env.qAuthors.isSome = true)
    (h7 : env.qLog = some (0, raw))
    (hg1 : g.first_commit_date = none) (hg2 : g.last_commit_date = none) :
    (gitStep3 env g).commit_history = (parseLog raw).take 100
  ∧ (gitStep3 env g).first_commit_date = ((parseLog raw).getLast?).map (·.date)
  ∧ (gitStep3 env g).last_commit_date = ((parseLog raw).head?).map (·.date) := by
  obtain ⟨⟨rc, out⟩, he⟩ := Option.isSome_iff_exists.mp h5
  simp only [gitStep3, he]
  split_ifs with h
  · exact gitStep4_log env _ raw h6 h7 hg1 hg2
  · exact gitStep4_log env g raw h6 h7 hg1 hg2

lemma gitStep2_log (env : GitEnv) (g : GitData) (raw : String)
    (h4 : env.qBranch.isSome = true) (h5 : env.qBranches.isSome = true)
    (h6 : env.qAuthors.isSome = true) (h7 : env.qLog = some (0, raw))
    (hg1 : g.first_commit_date = none) (hg2 : g.last_commit_date = none) :
    (gitStep2 env g).commit_history = (parseLog raw).take 100
  ∧ (gitStep2 env g).first_commit_date = ((parseLog raw).getLast?).map (·.date)
  ∧ (gitStep2 env g).last_commit_date = ((parseLog raw).head?).map (·.date) := by
  obtain ⟨⟨rc, out⟩, he⟩ := Option.isSome_iff_exists.mp h4
  simp only [gitStep2, he]
  split_ifs with h
  · exact gitStep3_log env _ raw h5 h6 h7 hg1 hg2
  · exact gitStep3_log env g raw h5 h6 h7 hg1 hg2

lemma analyzeGit_log (env : GitEnv) (rc1 : Int) (o1 raw : String)
    (h1 : env.gitDirExists = true) (h2 : env.qCount = some (rc1, o1))
    (h3 : rc1 = 0 → (parseIntStr o1).isSome = true)
    (h4 : env.qBranch.isSome = true) (h5 : env.qBranches.isSome = true)
    (h6 : env.qAuthors.isSome = true) (h7 : env.qLog = some (0, raw)) :
    (analyzeGit env).commit_history = (parseLog raw).take 100
  ∧ (analyzeGit env).first_commit_date = ((parseLog raw).getLast?).map (·.date)
  ∧ (analyzeGit env).last_commit_date = ((parseLog raw).head?).map (·.date) := by
  simp only [analyzeGit, h1, h2, if_true]
  split_ifs with hrc
  · obtain ⟨n, hn⟩ := Option.isSome_iff_exists.mp (h3 hrc)
    simp only [hn]
    exact gitStep2_log env _ raw h4 h5 h6 h7 rfl rfl
  · exact gitStep2_log env _ raw h4 h5 h6 h7 rfl rfl

/-!
Lemmas about which entries can reach the main-file accumulator. -/

lemma codeStep_mains (acc : CodeAcc) (f : SrcFile) :
    (codeStep acc f).mains = acc.mains
  ∨ (visitedBy codeDenyDirs f = true ∧ f.readable = true
     ∧ endsWithAny f.name sourceExts = true
     ∧ endsWithAny f.name jsTestSuffixes = false
     ∧ (codeStep acc f).mains
        = acc.mains ++ [⟨relPath f, readlinesCount f.content, extOr f.name⟩]) := by
  unfold codeStep
  by_cases hv : visitedBy codeDenyDirs f
  · by_cases hr : f.readable
    · by_cases h1 : endsWithAny f.name sourceExts
      · by_cases h2 : endsWithAny f.name jsTestSuffixes
        · left
          simp only [hv, hr, h1, h2, Bool.not_true, Bool.and_false,
            Bool.false_eq_true, if_false, Bool.true_and]
          split_ifs <;> rfl
        · right
          refine ⟨hv, hr, h1, by simpa using h2, ?_⟩
          simp only [hv, hr, h1, h2, Bool.not_true, Bool.not_false,
            Bool.and_true, Bool.false_eq_true, if_false, if_true]
          split_ifs <;> rfl
      · left
        simp only [hv, hr, h1, Bool.false_and, Bool.false_eq_true, if_false,
          Bool.not_true]
        split_ifs <;> rfl
    · left
      have hr' : f.readable = false := by simpa using hr
      simp [hv, hr']
  · left
    have hv' : visitedBy codeDenyDirs f = false := by simpa using hv
    simp [hv']

lemma mem_foldl_mains (fs : List SrcFile) :
    ∀ (acc : CodeAcc) (x : MainEntry),
      x ∈ (fs.foldl codeStep acc).mains →
        x ∈ acc.mains
      ∨ ∃ f ∈ fs, visitedBy codeDenyDirs f = true ∧ f.readable = true
          ∧ endsWithAny f.name sourceExts = true
          ∧ endsWithAny f.name jsTestSuffixes = false
          ∧ x = ⟨relPath f, readlinesCount f.content, extOr f.name⟩ := by
  induction fs with
  | nil => exact fun acc x h => Or.inl h
  | cons f t ih =>
    intro acc x h
    rcases ih (codeStep acc f) x h with h' | ⟨g, hg, rest⟩
    · rcases codeStep_mains acc f with he | ⟨p1, p2, p3, p4, he⟩
      · exact Or.inl (he ▸ h')
      · rw [he, List.mem_append, List.mem_singleton] at h'
        rcases h' with h' | rfl
        · exact Or.inl h'
        · exact Or.inr ⟨f, List.mem_cons_self f t, p1, p2, p3, p4, rfl⟩
    · exact Or.inr ⟨g, List.mem_cons_of_mem f hg, rest⟩

lemma roundHalfEvenDiv_one (n : Int) : roundHalfEvenDiv n 1 = n := by
  simp [roundHalfEvenDiv, Int.emod_one]

/-!
Claim theorems. -/

/-- C1 (code bug): on the spec's own scenario repository (a 50-line `a.py`
and a 20-line `a.test.py` with two `test(` markers) an analysis run
produces `test_coverage = 0`, not `min(100, round(100*20/50)) = 40`:
`_analyze_tests` reads `self.data["code"]` before `self.data` is assigned.
The last conjunct shows the same pass applied to the code summary this very
run computes does yield 40, isolating the stale read as the cause. -/
theorem c1_test_coverage_stale_zero :
    (analyze oracleNone envNoGit c1Repo depsNone).tests.test_coverage = 0
  ∧ (analyze oracleNone envNoGit c1Repo depsNone).code.loc_breakdown.source = 50
  ∧ (analyze oracleNone envNoGit c1Repo depsNone).code.loc_breakdown.tests = 20
  ∧ (analyzeTests c1Repo (some (analyzeCode c1Repo))).test_coverage = 40 := by
  refine ⟨rfl, by decide, by decide, by decide⟩

/-- C2 (counterexample): a run over a repository with 2 commits, both of
whose subjects contain refactor keywords, yields `refactoring_ratio = 0`,
whereas the claim's formula over the retained history demands
`round(100 * 2/2, 1) = 100.0` (1000 tenths). -/
theorem c2_counterexample :
    (analyzeGit env2).total_commits = 2
  ∧ (analyzeGit env2).commit_history.length = 2
  ∧ countRefactors (analyzeGit env2).commit_history = 2
  ∧ (analyze oracleNone env2 [] depsNone).quality.refactoring_ratio_tenths = 0
  ∧ ((0 : Int) = 1000 → False) := by
  refine ⟨by decide, by decide, by decide, rfl, by decide⟩

/-- C2 (amended): in every analysis run the refactoring ratio is 0, because
`_calculate_quality_metrics` reads the `"git"` entry of `self.data` before
`self.data` is assigned and therefore sees no commits at all. -/
theorem c2_refactoring_ratio_always_zero (oracle : String → Option Int)
    (env : GitEnv) (fs : List SrcFile) (deps : DepEnv) :
    (analyze oracle env fs deps).quality.refactoring_ratio_tenths = 0 := rfl

/-- C4 (counterexample): a quality derivation whose git summary has an
unparseable first-commit date and 5 total commits leaves the age at its
default of 1 but computes `commits_per_day = round(5/1, 2) = 5.0`
(500 hundredths), not 0 as the claim states. -/
theorem c4_counterexample :
    c4Git.first_commit_date = some "not-a-date"
  ∧ oracleNone "not-a-date" = none
  ∧ (calcQuality oracleNone (some c4Git)).project_age_days = 1
  ∧ (calcQuality oracleNone (some c4Git)).commits_per_day_hundredths = 500
  ∧ ((500 : Int) = 0 → False) := by
  refine ⟨rfl, rfl, by decide, by decide, by decide⟩

/-- C4 (amended): when the quality derivation receives a git summary whose
first-commit timestamp fails to parse, `project_age_days` keeps its default
of 1, `commits_per_day` equals `round(total_commits / 1, 2)` (that is,
`total_commits` itself, 0 only when there are no commits), and the
refactoring ratio is unaffected by the date oracle, so the failure does not
abort its derivation. -/
theorem c4_parse_failure_keeps_defaults (oracle : String → Option Int)
    (g : GitData) (s : String)
    (h1 : g.first_commit_date = some s) (h2 : oracle s = none) :
    (calcQuality oracle (some g)).project_age_days = 1
  ∧ (calcQuality oracle (some g)).commits_per_day_hundredths
      = g.total_commits * 100
  ∧ ∀ oracle₂ : String → Option Int,
      (calcQuality oracle₂ (some g)).refactoring_ratio_tenths
        = (calcQuality oracle (some g)).refactoring_ratio_tenths := by
  refine ⟨?_, ?_, fun oracle₂ => rfl⟩
  · simp [calcQuality, h1, h2]
  · simp [calcQuality, h1, h2, roundHalfEvenDiv_one]

/-- Witness for C4's amended theorem at a concrete input. -/
theorem c4_parse_failure_keeps_defaults_witness :
    c4Git.first_commit_date = some "not-a-date"
  ∧ oracleNone "not-a-date" = none
  ∧ (calcQuality oracleNone (some c4Git)).commits_per_day_hundredths
      = c4Git.total_commits * 100 :=
  ⟨rfl, rfl,
    (c4_parse_failure_keeps_defaults oracleNone c4Git "not-a-date" rfl rfl).2.1⟩

/-- C8: with no `.git` directory the VCS pass returns the zero-valued
summary, independent of what any query would have returned (the queries
are never consulted: the result is the constant default). -/
theorem c8_no_git_default (env : GitEnv) (h : env.gitDirExists = false) :
    analyzeGit env = defaultGitData := by
  simp [analyzeGit, h]

/-- Witness for C8 at a concrete environment with nontrivial query
results. -/
theorem c8_no_git_default_witness :
    envNoGit.gitDirExists = false ∧ analyzeGit envNoGit = defaultGitData :=
  ⟨rfl, c8_no_git_default envNoGit rfl⟩

/-- C10: when `package.json` parses as an object and `requirements.txt` is
readable, both `"npm"` and `"pip"` are listed, but `total_deps` is the
requirements line count alone — line 307 assigns instead of adding, so the
pip count overwrites the npm total computed first. -/
theorem c10_pip_overwrites (n d : Nat) (ls : List String) (e : DepEnv)
    (h1 : e.packageJson = PkgRead.parsed n d)
    (h2 : e.requirementsTxt = ReqRead.readLines ls) :
    "npm" ∈ (analyzeDependencies e).package_managers
  ∧ "pip" ∈ (analyzeDependencies e).package_managers
  ∧ (analyzeDependencies e).total_deps = reqCount ls := by
  simp only [analyzeDependencies, h1, h2]
  split_ifs <;> simp

/-- Witness for C10 at a concrete pair of manifests. -/
theorem c10_pip_overwrites_witness :
    depBoth.packageJson = PkgRead.parsed 5 2
  ∧ "npm" ∈ (analyzeDependencies depBoth).package_managers
  ∧ "pip" ∈ (analyzeDependencies depBoth).package_managers
  ∧ (analyzeDependencies depBoth).total_deps
      = reqCount ["a==1\n", "# c\n", "\n", "b\n"] :=
  ⟨rfl, (c10_pip_overwrites 5 2 _ depBoth rfl rfl).1,
    (c10_pip_overwrites 5 2 _ depBoth rfl rfl).2.1,
    (c10_pip_overwrites 5 2 _ depBoth rfl rfl).2.2⟩

/-- C5 (counterexample): `build` is on the code scanner's deny list, yet a
file placed under `build/` still appears in the test counts and the
test-file ranking, because the test walker prunes only
node_modules/.git/coverage — so a file under a deny-listed directory name
is not absent from every count and listing. -/
theorem c5_counterexample :
    "build" ∈ codeDenyDirs
  ∧ visitedBy codeDenyDirs buildTestFile = false
  ∧ (analyzeTests [buildTestFile] none).total_tests = 1
  ∧ ((analyzeTests [buildTestFile] none).test_files.map (·.path))
      = ["build/test_a.py"] := by
  refine ⟨by decide, by decide, by decide, by decide⟩

/-- C5 (amended): a file below a directory whose name is on the deny list
of every walker (the common sublist node_modules/.git/coverage) is
invisible to all three filesystem passes: removing it changes none of the
code, test, or inventory summaries — hence no count and no listing. -/
theorem c5_common_denylist_invisible (l1 l2 : List SrcFile) (f : SrcFile)
    (d : String) (hd : d ∈ f.dirs) (hdeny : d ∈ testsDenyDirs)
    (prev : Option CodeData) :
    analyzeCode (l1 ++ f :: l2) = analyzeCode (l1 ++ l2)
  ∧ analyzeTests (l1 ++ f :: l2) prev = analyzeTests (l1 ++ l2) prev
  ∧ analyzeFiles (l1 ++ f :: l2) = analyzeFiles (l1 ++ l2) := by
  obtain ⟨hc, ht, hf⟩ := common_deny_contains d hdeny
  have hvc := visitedBy_false_of_mem codeDenyDirs f d hd hc
  have hvt := visitedBy_false_of_mem testsDenyDirs f d hd ht
  have hvf := visitedBy_false_of_mem filesDenyDirs f d hd hf
  have e1 := foldl_skip_middle codeStep codeAccInit f l1 l2
    (fun acc => codeStep_skip acc f hvc)
  have e2 := foldl_skip_middle testStep (⟨[], 0⟩ : TestAcc) f l1 l2
    (fun acc => testStep_skip acc f hvt)
  have e3 := foldl_skip_middle filesStep (⟨0, [], [], []⟩ : FilesAcc) f l1 l2
    (fun acc => filesStep_skip acc f hvf)
  refine ⟨?_, ?_, ?_⟩
  · simp only [analyzeCode, e1]
  · simp only [analyzeTests, e2]
  · simp only [analyzeFiles, e3]

/-- Witness for C5's amended theorem at a concrete file under
`node_modules`. -/
theorem c5_common_denylist_invisible_witness :
    "node_modules" ∈ nmFile.dirs ∧ "node_modules" ∈ testsDenyDirs
  ∧ analyzeCode ([] ++ nmFile :: []) = analyzeCode ([] ++ []) :=
  ⟨by decide, by decide,
    (c5_common_denylist_invisible [] [] nmFile "node_modules"
      (by decide) (by decide) none).1⟩

/-- C6: scanning one more visited, readable file adds its line count to
`total_lines` unconditionally and to exactly one LOC bucket, chosen by the
suffix precedence tests > docs > config > source; a file matching no
suffix pattern changes no bucket (last conjunct: the bucket sum grows by
the line count exactly when some suffix matches, else by 0). -/
theorem c6_loc_buckets (fs : List SrcFile) (f : SrcFile)
    (hv : visitedBy codeDenyDirs f = true) (hr : f.readable = true) :
    (analyzeCode (fs ++ [f])).total_lines
      = (analyzeCode fs).total_lines + readlinesCount f.content
  ∧ (analyzeCode (fs ++ [f])).loc_breakdown.tests
      = (analyzeCode fs).loc_breakdown.tests
        + (if endsWithAny f.name locTestSuffixes then readlinesCount f.content
           else 0)
  ∧ (analyzeCode (fs ++ [f])).loc_breakdown.docs
      = (analyzeCode fs).loc_breakdown.docs
        + (if ¬ endsWithAny f.name locTestSuffixes ∧ isSuffix ".md" f.name
           then readlinesCount f.content else 0)
  ∧ (analyzeCode (fs ++ [f])).loc_breakdown.config
      = (analyzeCode fs).loc_breakdown.config
        + (if ¬ endsWithAny f.name locTestSuffixes ∧ ¬ isSuffix ".md" f.name
              ∧ endsWithAny f.name configSuffixes
           then readlinesCount f.content else 0)
  ∧ (analyzeCode (fs ++ [f])).loc_breakdown.source
      = (analyzeCode fs).loc_breakdown.source
        + (if ¬ endsWithAny f.name locTestSuffixes ∧ ¬ isSuffix ".md" f.name
              ∧ ¬ endsWithAny f.name configSuffixes
              ∧ endsWithAny f.name sourceExts
           then readlinesCount f.content else 0)
  ∧ (analyzeCode (fs ++ [f])).loc_breakdown.tests
      + (analyzeCode (fs ++ [f])).loc_breakdown.docs
      + (analyzeCode (fs ++ [f])).loc_breakdown.config
      + (analyzeCode (fs ++ [f])).loc_breakdown.source
      = (analyzeCode fs).loc_breakdown.tests
        + (analyzeCode fs).loc_breakdown.docs
        + (analyzeCode fs).loc_breakdown.config
        + (analyzeCode fs).loc_breakdown.source
        + (if endsWithAny f.name locTestSuffixes ∨ isSuffix ".md" f.name
              ∨ endsWithAny f.name configSuffixes
              ∨ endsWithAny f.name sourceExts
           then readlinesCount f.content else 0) := by
  have e : (fs ++ [f]).foldl codeStep codeAccInit
      = codeStep (fs.foldl codeStep codeAccInit) f := by
    simp [List.foldl_append]
  simp only [analyzeCode, e]
  by_cases h1 : endsWithAny f.name locTestSuffixes <;>
    by_cases h2 : isSuffix ".md" f.name <;>
      by_cases h3 : endsWithAny f.name configSuffixes <;>
        by_cases h4 : endsWithAny f.name sourceExts <;>
          simp [codeStep, hv, hr, h1, h2, h3, h4] <;> omega

/-- Witness for C6 at a concrete source file. -/
theorem c6_loc_buckets_witness :
    visitedBy codeDenyDirs aPy = true ∧ aPy.readable = true
  ∧ (analyzeCode ([] ++ [aPy])).total_lines
      = (analyzeCode []).total_lines + readlinesCount aPy.content :=
  ⟨by decide, rfl, (c6_loc_buckets [] aPy (by decide) rfl).1⟩

/-- C9 (counterexample): the Python test file `a.test.py` is listed among
the top main source files — the main-file exclusion of line 164 covers only
the four JS/TS test suffixes, not `*.test.py` (nor `test_*.py`,
`*_test.py`). -/
theorem c9_counterexample :
    ((analyzeCode [aTestPy]).main_files.map (·.path)) = ["a.test.py"]
  ∧ isSuffix ".test.py" "a.test.py" = true
  ∧ (analyzeCode [aTestPy]).main_files ≠ [] := by
  refine ⟨by decide, by decide, by decide⟩

/-- C9 (amended): every entry of the main-file ranking comes from a
visited, readable file whose name has a recognized source extension and
does not end in one of the four JS/TS test suffixes `.test.js`, `.spec.js`,
`.test.ts`, `.spec.ts` — test files of other conventions are not
excluded. -/
theorem c9_main_files_guard (fs : List SrcFile) (x : MainEntry)
    (hx : x ∈ (analyzeCode fs).main_files) :
    ∃ f ∈ fs, visitedBy codeDenyDirs f = true ∧ f.readable = true
      ∧ endsWithAny f.name sourceExts = true
      ∧ endsWithAny f.name jsTestSuffixes = false
      ∧ x = ⟨relPath f, readlinesCount f.content, extOr f.name⟩ := by
  have hx' : x ∈ (rankDescBy (fun e : MainEntry => e.lines)
      (fs.foldl codeStep codeAccInit).mains).take 20 := hx
  have h2 : x ∈ (fs.foldl codeStep codeAccInit).mains := by
    have h3 := (List.take_sublist 20 (rankDescBy (fun e : MainEntry => e.lines)
      (fs.foldl codeStep codeAccInit).mains)).subset hx'
    exact (List.mem_insertionSort _).mp h3
  rcases mem_foldl_mains fs codeAccInit x h2 with h | h
  · exact absurd h (by simp [codeAccInit])
  · exact h

/-- Witness for C9's amended theorem: the `a.test.py` entry satisfies the
(amended) guard. -/
theorem c9_main_files_guard_witness :
    c9Entry ∈ (analyzeCode [aTestPy]).main_files
  ∧ ∃ f ∈ [aTestPy], visitedBy codeDenyDirs f = true ∧ f.readable = true
      ∧ endsWithAny f.name sourceExts = true
      ∧ endsWithAny f.name jsTestSuffixes = false
      ∧ c9Entry = ⟨relPath f, readlinesCount f.content, extOr f.name⟩ :=
  ⟨by decide, c9_main_files_guard [aTestPy] c9Entry (by decide)⟩

set_option maxRecDepth 100000 in
/-- C3 (counterexample): with a 101-commit log, `first_commit_date` is the
date of the 101st-newest (true oldest) parsed commit, while the oldest
entry retained in the capped history carries the 100th-newest date — the
two differ, contradicting the claim that the recorded date is the oldest
retained one. -/
theorem c3_counterexample :
    (analyzeGit env101).commit_history.length = 100
  ∧ (analyzeGit env101).first_commit_date = some (dstr 100)
  ∧ ((analyzeGit env101).commit_history.getLast?.map (·.date)) = some (dstr 99)
  ∧ dstr 100 ≠ dstr 99 := by
  refine ⟨?_, ?_, ?_, ?_⟩
  · decide
  · decide
  · decide
  · decide

/-- C3 (amended): whenever the log query completes, the retained history is
the first 100 parsed entries, but `first_commit_date`/`last_commit_date`
are taken from the full parsed list before capping — so they are the true
repository extremes (of parseable lines) even when more than 100 commits
exist. -/
theorem c3_dates_from_full_log (env : GitEnv) (rc1 : Int) (o1 raw : String)
    (h1 : env.gitDirExists = true) (h2 : env.qCount = some (rc1, o1))
    (h3 : rc1 = 0 → (parseIntStr o1).isSome = true)
    (h4 : env.qBranch.isSome = true) (h5 : env.qBranches.isSome = true)
    (h6 : env.qAuthors.isSome = true) (h7 : env.qLog = some (0, raw)) :
    (analyzeGit env).commit_history = (parseLog raw).take 100
  ∧ (analyzeGit env).first_commit_date = ((parseLog raw).getLast?).map (·.date)
  ∧ (analyzeGit env).last_commit_date = ((parseLog raw).head?).map (·.date) :=
  analyzeGit_log env rc1 o1 raw h1 h2 h3 h4 h5 h6 h7

/-- Witness for C3's amended theorem on a concrete healthy environment. -/
theorem c3_dates_from_full_log_witness :
    env2.qLog = some (0, rawLog2)
  ∧ (analyzeGit env2).commit_history = (parseLog rawLog2).take 100
  ∧ (analyzeGit env2).first_commit_date
      = ((parseLog rawLog2).getLast?).map (·.date) :=
  ⟨rfl,
    (c3_dates_from_full_log env2 0 "2\n" rawLog2 rfl rfl (by decide)
      (by decide) (by decide) (by decide) rfl).1,
    (c3_dates_from_full_log env2 0 "2\n" rawLog2 rfl rfl (by decide)
      (by decide) (by decide) (by decide) rfl).2.1⟩

/-- C7: each capped ranking has length at most its cap, is sorted
descending by its stated key, and its equal-key entries form a subsequence
of the discovery-ordered accumulator (ties preserve discovery order); the
retained commit log is the first 100 parsed entries and inherits any
descending ordering (newest-first) of the parsed log. -/
theorem c7_capped_rankings (fs : List SrcFile) (prev : Option CodeData)
    (env : GitEnv) (rc1 : Int) (o1 raw : String)
    (h1 : env.gitDirExists = true) (h2 : env.qCount = some (rc1, o1))
    (h3 : rc1 = 0 → (parseIntStr o1).isSome = true)
    (h4 : env.qBranch.isSome = true) (h5 : env.qBranches.isSome = true)
    (h6 : env.qAuthors.isSome = true) (h7 : env.qLog = some (0, raw)) :
    (analyzeCode fs).main_files.length ≤ 20
  ∧ (analyzeCode fs).main_files.Pairwise (fun a b => b.lines ≤ a.lines)
  ∧ (∀ v, List.Sublist
      ((analyzeCode fs).main_files.filter (fun e => e.lines == v))
      ((fs.foldl codeStep codeAccInit).mains.filter (fun e => e.lines == v)))
  ∧ (analyzeTests fs prev).test_files.length ≤ 15
  ∧ (analyzeTests fs prev).test_files.Pairwise (fun a b => b.tests ≤ a.tests)
  ∧ (∀ v, List.Sublist
      ((analyzeTests fs prev).test_files.filter (fun e => e.tests == v))
      ((fs.foldl testStep (⟨[], 0⟩ : TestAcc)).files.filter
        (fun e => e.tests == v)))
  ∧ (analyzeFiles fs).largest_files.length ≤ 15
  ∧ (analyzeFiles fs).largest_files.Pairwise
      (fun a b => b.size_kb10 ≤ a.size_kb10)
  ∧ (∀ v, List.Sublist
      ((analyzeFiles fs).largest_files.filter (fun e => e.size_kb10 == v))
      ((fs.foldl filesStep (⟨0, [], [], []⟩ : FilesAcc)).allFiles.filter
        (fun e => e.size_kb10 == v)))
  ∧ (analyzeGit env).commit_history.length ≤ 100
  ∧ (analyzeGit env).commit_history = (parseLog raw).take 100
  ∧ (∀ k : Commit → Nat,
      (parseLog raw).Pairwise (fun a b => k b ≤ k a) →
      (analyzeGit env).commit_history.Pairwise (fun a b => k b ≤ k a)) := by
  obtain ⟨hl1, _, _⟩ := analyzeGit_log env rc1 o1 raw h1 h2 h3 h4 h5 h6 h7
  refine ⟨rank_take_length _ 20 _, rank_take_pairwise _ 20 _,
    fun v => rank_take_stable _ 20 v _,
    rank_take_length _ 15 _, rank_take_pairwise _ 15 _,
    fun v => rank_take_stable _ 15 v _,
    rank_take_length _ 15 _, rank_take_pairwise _ 15 _,
    fun v => rank_take_stable _ 15 v _,
    ?_, hl1, ?_⟩
  · rw [hl1]
    exact List.length_take_le _ _
  · intro k hk
    rw [hl1]
    exact hk.sublist (List.take_sublist _ _)

/-- Witness for C7 on a concrete repository and git environment. -/
theorem c7_capped_rankings_witness :
    env2.qLog = some (0, rawLog2)
  ∧ (analyzeCode c1Repo).main_files.length ≤ 20
  ∧ (analyzeGit env2).commit_history = (parseLog rawLog2).take 100 :=
  ⟨rfl,
    (c7_capped_rankings c1Repo none env2 0 "2\n" rawLog2 rfl rfl (by decide)
      (by decide) (by decide) (by decide) rfl).1,
    (c7_capped_rankings c1Repo none env2 0 "2\n" rawLog2 rfl rfl (by decide)
      (by decide) (by decide) (by decide) rfl).2.2.2.2.2.2.2.2.2.2.1⟩

end Trailwaze
